import Mathlib

/-!
# dbx: nested transactions and row-count expectations

A shallow embedding of `db.go` and `dbx.go`.  The handle `DB` keeps one engine
transaction (`tx`) and a nesting counter (`nestedTx`).  Every method takes the
mutex on entry and releases it on exit, so a method body is one atomic step and
is modelled as a pure function of the state before the call.

The collaborators outside the package (the goql parser and compiler, the
`database/sql` driver) are the fields of `Env`.  Each driver call is appended
to a log, and a driver answer may depend on the whole log, so a driver can
answer differently each time it is called.

`nestedTx` is a Go `int`.  It moves by one per call, and
`nestedTx_bounds` shows that after any run from the empty state it lies between
`0` and the number of calls made, so it is kept as an unbounded `Int`.
-/

namespace Dbx

/-- Identity of an engine transaction, a `*sql.Tx`. -/
abbrev Tx := Nat

/-- Identity of a live driver cursor, a `*sql.Rows`. -/
abbrev Rows := Nat

/-- An `interface{}` value bound to a query or read from a row. -/
inductive Value where
  /-- The nil interface value. -/
  | nil
  | int (i : Int)
  | str (s : String)
  | bool (b : Bool)
  deriving DecidableEq

/-- A Go `error` value. -/
inductive Err where
  /-- The value of `fmt.Errorf(msg)`. -/
  | errorf (msg : String)
  /-- Modelled from the spec: the sentinel `ErrReadOnly`, declared outside
  `db.go` and `dbx.go` (`ReadOnlyError` in the spec). -/
  | ErrReadOnly
  /-- The sentinel `sql.ErrNoRows`. -/
  | ErrNoRows
  /-- The value of `amura.NewPublicError(msg, public)`. -/
  | NewPublicError (msg : String) (isPublic : Bool)
  /-- Any other error value handed back by the driver, parser or compiler. -/
  | foreign (id : Nat) (msg : String)
  deriving DecidableEq

/-- A parsed `goql.Query`; the constructor is its dynamic type. -/
inductive goql.Query where
  | SelectQuery (id : Nat)
  | ShowQuery (id : Nat)
  | other (id : Nat)
  deriving DecidableEq

/-- An `sql.Result`. -/
structure Result where
  LastInsertId : Int
  RowsAffected : Int
  deriving DecidableEq

/-- Modelled from the spec: `Row`, declared outside `db.go` and `dbx.go`; an
ordered sequence of normalized values. -/
structure Row where
  Values : List Value
  deriving DecidableEq

/-- Modelled from the spec: `Column`, declared outside `db.go` and `dbx.go`; a
name and a canonical type tag. -/
structure Column where
  Name : String
  Typ : String
  deriving DecidableEq

/-- Modelled from the spec: `Table`, declared outside `db.go` and `dbx.go`; an
ordered sequence of columns and an ordered sequence of rows. -/
structure Table where
  Columns : List Column
  Rows : List Row
  deriving DecidableEq

/-- What `db.queryable()` hands back: the open transaction or the base
connection `db.DB`. -/
inductive Queryable where
  | tx (t : Tx)
  | DB
  deriving DecidableEq

/-- A call that leaves the package. -/
inductive Call where
  | ParseQuery (query : String)
  | ToSql (q : goql.Query) (params : List Value) (database driver : String)
  | Begin
  | Commit (t : Tx)
  | Rollback (t : Tx)
  | Exec (target : Queryable) (query : String) (args : List Value)
  | Query (target : Queryable) (query : String) (args : List Value)
  deriving DecidableEq

/-- The collaborators of the package.  The `List Call` argument is the log of
the calls made so far. -/
structure Env where
  /-- The parser `goql.ParseQuery`. -/
  ParseQuery : List Call → String → Except Err goql.Query
  /-- The compiler `goql.ToSql(q, params, database, driver)`. -/
  ToSql : List Call → goql.Query → List Value → String → String → Except Err (String × List Value)
  /-- The driver call `db.DB.Begin()`. -/
  sqlBegin : List Call → Except Err Tx
  /-- The driver call `tx.Commit()`. -/
  txCommit : List Call → Tx → Option Err
  /-- The driver call `tx.Rollback()`. -/
  txRollback : List Call → Tx → Option Err
  /-- The driver call `q.Exec(query, args...)` on a queryable. -/
  sqlExec : List Call → Queryable → String → List Value → Except Err Result
  /-- The driver call `q.Query(query, args...)` on a queryable. -/
  sqlQuery : List Call → Queryable → String → List Value → Except Err Rows
  /-- Modelled from the spec: the Table Materializer `ToTable`, declared outside
  `db.go` and `dbx.go`; it drains a cursor into a `Table` or fails. -/
  ToTable : Rows → Except Err Table

/-- The handle `DB` of `db.go`, without the pool pointer and the mutex. -/
structure DB where
  Driver : String
  DSN : String
  Database : String
  Namespace : String
  NamespaceWriteAll : Bool
  ReadOnly : Bool
  tx : Option Tx
  nestedTx : Int
  deriving DecidableEq

/-- A handle together with the log of the calls that left the package. -/
structure World where
  db : DB
  log : List Call
  deriving DecidableEq

/-- The method `db.HasTransaction()`. -/
def HasTransaction (w : World) : Bool :=
  w.db.tx.isSome

/-- The method `db.NestedTransactions()`. -/
def NestedTransactions (w : World) : Int :=
  w.db.nestedTx

/-- The method `db.queryable()`. -/
def queryable (w : World) : Queryable :=
  match w.db.tx with
  | some t => Queryable.tx t
  | none => Queryable.DB

/-- The method `db.Begin()`. -/
def Begin (env : Env) (w : World) : Option Err × World :=
  if w.db.tx.isNone && decide (w.db.nestedTx > 0) then
    (some (Err.errorf "GOQL: Previous transaction still open"), w)
  else if w.db.tx.isSome then
    (none, { w with db := { w.db with nestedTx := w.db.nestedTx + 1 } })
  else
    match env.sqlBegin w.log with
    | Except.error err => (some err, { w with log := w.log ++ [Call.Begin] })
    | Except.ok t =>
      (none, { db := { w.db with nestedTx := w.db.nestedTx + 1, tx := some t },
               log := w.log ++ [Call.Begin] })

/-- The method `db.Rollback()`. -/
def Rollback (env : Env) (w : World) : Option Err × World :=
  match w.db.tx with
  | some t =>
    let w1 : World := { db := { w.db with tx := none }, log := w.log ++ [Call.Rollback t] }
    match env.txRollback w.log t with
    | some err => (some err, w1)
    | none =>
      if w1.db.nestedTx = 0 then
        (some (Err.errorf "No transaction open.3"), w1)
      else
        (none, { w1 with db := { w1.db with nestedTx := w1.db.nestedTx - 1 } })
  | none =>
    if w.db.nestedTx = 0 then
      (some (Err.errorf "No transaction open.3"), w)
    else
      (none, { w with db := { w.db with nestedTx := w.db.nestedTx - 1 } })

/-- The method `db.CommitForce()`. -/
def CommitForce (env : Env) (w : World) : Option Err × World :=
  if w.db.nestedTx = 0 then
    (some (Err.errorf "No transaction open"), w)
  else
    match w.db.tx with
    | none => (some (Err.errorf "No transaction open.2"), w)
    | some t =>
      let w1 : World := { w with log := w.log ++ [Call.Commit t] }
      match env.txCommit w.log t with
      | some err => (some err, w1)
      | none => (none, { w1 with db := { w1.db with tx := none, nestedTx := 0 } })

/-- The method `db.Commit()`. -/
def Commit (env : Env) (w : World) : Option Err × World :=
  if w.db.nestedTx = 0 then
    (some (Err.errorf "No transaction open"), w)
  else
    let w1 : World := { w with db := { w.db with nestedTx := w.db.nestedTx - 1 } }
    if w1.db.nestedTx > 0 then
      (none, w1)
    else
      match w1.db.tx with
      | none => (some (Err.errorf "No transaction open.2"), w1)
      | some t =>
        let w2 : World := { w1 with log := w1.log ++ [Call.Commit t] }
        match env.txCommit w1.log t with
        | some err => (some err, w2)
        | none => (none, { w2 with db := { w2.db with tx := none } })

/-- The four transaction methods, as the letters of a call sequence. -/
inductive Op where
  | Begin
  | Commit
  | CommitForce
  | Rollback
  deriving DecidableEq

/-- One call of a transaction method. -/
def step (env : Env) (w : World) : Op → Option Err × World
  | Op.Begin => Begin env w
  | Op.Commit => Commit env w
  | Op.CommitForce => CommitForce env w
  | Op.Rollback => Rollback env w

/-- A sequence of calls, each started in the state the previous one left (also
when it returned an error); the errors returned are collected in order. -/
def run (env : Env) : World → List Op → List (Option Err) × World
  | w, [] => ([], w)
  | w, op :: ops =>
    ((step env w op).1 :: (run env (step env w op).2 ops).1,
     (run env (step env w op).2 ops).2)

/-- The empty transaction state: depth 0, no handle. -/
def Empty (w : World) : Prop :=
  w.db.tx = none ∧ w.db.nestedTx = 0

/-- The test of `TestTransaction5` on a returned error:
`strings.Contains(err.Error(), "No transaction open")`, for the errors this
package builds with `fmt.Errorf`. -/
def Contains (s sub : List Char) : Bool :=
  match s with
  | [] => sub.isEmpty
  | c :: cs => sub.isPrefixOf (c :: cs) || Contains cs sub

/-- The error is one of the "No transaction open" errors of `db.go`. -/
def NoTransactionOpen : Err → Bool
  | Err.errorf msg => Contains msg.toList "No transaction open".toList
  | _ => false

/-- Result of a method that returns `(v, error)` and may dereference a nil
pointer: `ok v` is `(v, nil)`, `error e` is `(nil, e)`. -/
inductive Outcome (α : Type) where
  | ok (v : α)
  | error (e : Err)
  | panic
  deriving DecidableEq

/-- The method `db.ToSql(q, params)`. -/
def ToSql (env : Env) (w : World) (q : goql.Query) (params : List Value) :
    Except Err (String × List Value) × World :=
  let w1 : World := { w with log := w.log ++ [Call.ToSql q params w.db.Database w.db.Driver] }
  match env.ToSql w.log q params w.db.Database w.db.Driver with
  | Except.error err => (Except.error err, w1)
  | Except.ok sp => (Except.ok sp, w1)

/-- The method `db.ExecRaw(query, args...)`. -/
def ExecRaw (env : Env) (w : World) (query : String) (args : List Value) :
    Except Err Result × World :=
  if w.db.ReadOnly then
    (Except.error (Err.NewPublicError "Error 1299. Can't write changes in Read-Only mode" true), w)
  else
    let q := queryable w
    let w1 : World := { w with log := w.log ++ [Call.Exec q query args] }
    match env.sqlExec w.log q query args with
    | Except.error err => (Except.error err, w1)
    | Except.ok r => (Except.ok r, w1)

/-- The method `db.ExecEx(q, args...)`; `error e` is the Go pair `(nil, e)`. -/
def ExecEx (env : Env) (w : World) (q : goql.Query) (args : List Value) :
    Except Err Result × World :=
  if w.db.ReadOnly then
    (Except.error Err.ErrReadOnly, w)
  else
    match ToSql env w q args with
    | (Except.error err, w1) => (Except.error err, w1)
    | (Except.ok (s, params), w1) =>
      match ExecRaw env w1 s params with
      | (Except.error err, w2) => (Except.error err, w2)
      | (Except.ok r, w2) => (Except.ok r, w2)

/-- The method `db.Exec(query, args...)`; `error e` is the Go pair `(nil, e)`. -/
def Exec (env : Env) (w : World) (query : String) (args : List Value) :
    Except Err Result × World :=
  if w.db.ReadOnly then
    (Except.error Err.ErrReadOnly, w)
  else
    let w1 : World := { w with log := w.log ++ [Call.ParseQuery query] }
    match env.ParseQuery w.log query with
    | Except.error err => (Except.error err, w1)
    | Except.ok q => ExecEx env w1 q args

/-- The method `db.QueryRaw(query, args...)`; `ok none` is the pair
`(nil, nil)` returned when the driver answers `sql.ErrNoRows`. -/
def QueryRaw (env : Env) (w : World) (query : String) (args : List Value) :
    Except Err (Option Rows) × World :=
  let q := queryable w
  let w1 : World := { w with log := w.log ++ [Call.Query q query args] }
  match env.sqlQuery w.log q query args with
  | Except.error err =>
    if err = Err.ErrNoRows then (Except.ok none, w1) else (Except.error err, w1)
  | Except.ok r => (Except.ok (some r), w1)

/-- The method `db.QueryRows(query, args...)`. -/
def QueryRows (env : Env) (w : World) (query : String) (args : List Value) :
    Except Err (Option Rows) × World :=
  let w1 : World := { w with log := w.log ++ [Call.ParseQuery query] }
  match env.ParseQuery w.log query with
  | Except.error err => (Except.error err, w1)
  | Except.ok (goql.Query.SelectQuery id) =>
    match ToSql env w1 (goql.Query.SelectQuery id) args with
    | (Except.error err, w2) => (Except.error err, w2)
    | (Except.ok (s, params), w2) => QueryRaw env w2 s params
  | Except.ok _ => (Except.error (Err.errorf "Not a select query"), w1)

/-- The method `db.Query(query, args...)`.  A nil cursor handed on by
`QueryRows` is dereferenced by the deferred `rows.Close()`. -/
def Query (env : Env) (w : World) (query : String) (args : List Value) :
    Outcome Table × World :=
  match QueryRows env w query args with
  | (Except.error err, w1) => (Outcome.error err, w1)
  | (Except.ok none, w1) => (Outcome.panic, w1)
  | (Except.ok (some rows), w1) =>
    match env.ToTable rows with
    | Except.error err => (Outcome.error err, w1)
    | Except.ok t => (Outcome.ok t, w1)

/-- The method `db.QueryRow(query, args...)`; `ok none` is the pair
`(nil, nil)` and `ok (some r)` the pair `(r, nil)`. -/
def QueryRow (env : Env) (w : World) (query : String) (args : List Value) :
    Outcome (Option Row) × World :=
  match Query env w query args with
  | (Outcome.panic, w1) => (Outcome.panic, w1)
  | (Outcome.error err, w1) => (Outcome.error err, w1)
  | (Outcome.ok t, w1) =>
    match t.Rows with
    | [] => (Outcome.ok none, w1)
    | [r] => (Outcome.ok (some r), w1)
    | _ =>
      (Outcome.error (Err.errorf
        ("The query returned " ++ toString t.Rows.length ++ " results")), w1)

/-- The method `db.QueryValue(query, args...)`; `ok Value.nil` is the pair
`(nil, nil)`. -/
def QueryValue (env : Env) (w : World) (query : String) (args : List Value) :
    Outcome Value × World :=
  match QueryRow env w query args with
  | (Outcome.panic, w1) => (Outcome.panic, w1)
  | (Outcome.error err, w1) => (Outcome.error err, w1)
  | (Outcome.ok none, w1) => (Outcome.ok Value.nil, w1)
  | (Outcome.ok (some r), w1) =>
    match r.Values with
    | [v] => (Outcome.ok v, w1)
    | _ =>
      (Outcome.error (Err.errorf
        ("The query returned " ++ toString r.Values.length ++ " values")), w1)

/-- The driver opens a transaction whenever it is asked to. -/
def BeginSucceeds (env : Env) : Prop :=
  ∀ log, ∃ t, env.sqlBegin log = Except.ok t

/-- The driver commits whenever it is asked to. -/
def CommitSucceeds (env : Env) : Prop :=
  ∀ log t, env.txCommit log t = none

/-- The driver rolls back whenever it is asked to. -/
def RollbackSucceeds (env : Env) : Prop :=
  ∀ log t, env.txRollback log t = none

/-- The state `w` with handle `tx`, depth `d` and log `log`. -/
def World.set (w : World) (tx : Option Tx) (d : Int) (log : List Call) : World :=
  { db := { w.db with tx := tx, nestedTx := d }, log := log }

/-- A driver double in the manner of the in-memory database of `dbx_test.go`:
every call succeeds, a new transaction is named after the length of the log,
and every query opens cursor 1; cursor `k` is materialized as `k` rows of one
text value, so a query answers like `TestSelect` on a table of one row. -/
def okEnv : Env where
  ParseQuery := fun _ _ => Except.ok (goql.Query.SelectQuery 0)
  ToSql := fun _ _ params _ _ => Except.ok ("SELECT name FROM cars", params)
  sqlBegin := fun log => Except.ok log.length
  txCommit := fun _ _ => none
  txRollback := fun _ _ => none
  sqlExec := fun _ _ _ _ => Except.ok { LastInsertId := 1, RowsAffected := 1 }
  sqlQuery := fun _ _ _ _ => Except.ok 1
  ToTable := fun rows =>
    Except.ok { Columns := [{ Name := "name", Typ := "string" }],
                Rows := List.replicate rows { Values := [Value.str "ford"] } }

/-- The driver double `okEnv`, except that every `tx.Commit()` fails. -/
def commitFailEnv : Env :=
  { okEnv with txCommit := fun _ _ => some (Err.foreign 5 "database is locked") }

/-- The driver double `okEnv`, except that `db.DB.Begin()` fails. -/
def beginFailEnv : Env :=
  { okEnv with sqlBegin := fun _ => Except.error (Err.foreign 14 "unable to open database file") }

/-- A handle as `Open("sqlite3", ":memory:")` returns it, before any call. -/
def freshWorld : World :=
  { db := { Driver := "sqlite3", DSN := ":memory:", Database := "", Namespace := "",
            NamespaceWriteAll := false, ReadOnly := false, tx := none, nestedTx := 0 },
    log := [] }

/-- The handle `freshWorld` marked read-only. -/
def readOnlyWorld : World :=
  { freshWorld with db := { freshWorld.db with ReadOnly := true } }

/-- The state reached from `w` by `n` calls of `Begin`. -/
def afterBegins (env : Env) (w : World) (n : Nat) : World :=
  (run env w (List.replicate n Op.Begin)).2

/-- A handle is never open at depth 0 or below: the depth is not negative, and
a non-nil handle comes with a positive depth. -/
def HandleImpliesDepth (w : World) : Prop :=
  0 ≤ w.db.nestedTx ∧ (w.db.tx ≠ none → 0 < w.db.nestedTx)

/-- The invariant of the data model: the depth is not negative, and the handle
is non-nil exactly when the depth is positive. -/
def HandleIffDepth (w : World) : Prop :=
  0 ≤ w.db.nestedTx ∧ (w.db.tx ≠ none ↔ 0 < w.db.nestedTx)

/-- The driver double `okEnv`, except that every `tx.Rollback()` fails. -/
def rollbackFailEnv : Env :=
  { okEnv with txRollback := fun _ _ => some (Err.foreign 5 "database is locked") }

/-- The table `okEnv` materializes from cursor 1. -/
def oneRowTable : Table :=
  { Columns := [{ Name := "name", Typ := "string" }],
    Rows := [{ Values := [Value.str "ford"] }] }

/-! ## Single calls -/

theorem World.set_self (w : World) : w.set w.db.tx w.db.nestedTx w.log = w := by
  cases w; rfl

theorem Begin_first (env : Env) (w : World) (t : Tx) (hw : Empty w)
    (hb : env.sqlBegin w.log = Except.ok t) :
    Begin env w = (none, w.set (some t) 1 (w.log ++ [Call.Begin])) := by
  obtain ⟨h1, h2⟩ := hw
  simp [Begin, World.set, h1, h2, hb]

theorem Begin_nested (env : Env) (w : World) (t : Tx) (ht : w.db.tx = some t) :
    Begin env w = (none, w.set (some t) (w.db.nestedTx + 1) w.log) := by
  simp [Begin, World.set, ht]

theorem Commit_nested (env : Env) (w : World) (hd : 2 ≤ w.db.nestedTx) :
    Commit env w = (none, w.set w.db.tx (w.db.nestedTx - 1) w.log) := by
  have h0 : w.db.nestedTx ≠ 0 := by omega
  have h1 : w.db.nestedTx - 1 > 0 := by omega
  simp [Commit, World.set, h0, h1]

theorem Commit_last (env : Env) (w : World) (t : Tx) (hd : w.db.nestedTx = 1)
    (ht : w.db.tx = some t) (hc : env.txCommit w.log t = none) :
    Commit env w = (none, w.set none 0 (w.log ++ [Call.Commit t])) := by
  simp [Commit, World.set, hd, ht, hc]

theorem Commit_empty (env : Env) (w : World) (hd : w.db.nestedTx = 0) :
    Commit env w = (some (Err.errorf "No transaction open"), w) := by
  simp [Commit, hd]

theorem Commit_no_handle (env : Env) (w : World) (hd : w.db.nestedTx = 1)
    (ht : w.db.tx = none) :
    Commit env w =
      (some (Err.errorf "No transaction open.2"), w.set none 0 w.log) := by
  simp [Commit, World.set, hd, ht]

theorem Rollback_open (env : Env) (w : World) (t : Tx) (ht : w.db.tx = some t)
    (hd : w.db.nestedTx ≠ 0) (hr : env.txRollback w.log t = none) :
    Rollback env w =
      (none, w.set none (w.db.nestedTx - 1) (w.log ++ [Call.Rollback t])) := by
  simp [Rollback, World.set, ht, hd, hr]

theorem CommitForce_open (env : Env) (w : World) (t : Tx) (ht : w.db.tx = some t)
    (hd : w.db.nestedTx ≠ 0) (hc : env.txCommit w.log t = none) :
    CommitForce env w = (none, w.set none 0 (w.log ++ [Call.Commit t])) := by
  simp [CommitForce, World.set, ht, hd, hc]

/-! ## Runs -/

theorem run_append (env : Env) (w : World) (a b : List Op) :
    run env w (a ++ b) =
      ((run env w a).1 ++ (run env (run env w a).2 b).1, (run env (run env w a).2 b).2) := by
  induction a generalizing w with
  | nil => simp [run]
  | cons op a ih => simp [run, ih]

theorem run_Begin_nested (env : Env) (n : Nat) (w : World) (t : Tx)
    (ht : w.db.tx = some t) :
    run env w (List.replicate n Op.Begin) =
      (List.replicate n none, w.set (some t) (w.db.nestedTx + n) w.log) := by
  induction n generalizing w with
  | zero =>
    rcases w with ⟨⟨_, _, _, _, _, _, _, _⟩, _⟩
    simp_all [run, World.set]
  | succ n ih =>
    have hs : step env w Op.Begin = (none, w.set (some t) (w.db.nestedTx + 1) w.log) :=
      Begin_nested env w t ht
    simp only [List.replicate_succ, run, hs]
    rw [ih _ (by simp [World.set])]
    simp [World.set]
    omega

theorem run_Begin_empty (env : Env) (n : Nat) (w : World) (t : Tx) (hw : Empty w)
    (hb : env.sqlBegin w.log = Except.ok t) :
    run env w (List.replicate (n + 1) Op.Begin) =
      (List.replicate (n + 1) none, w.set (some t) (n + 1) (w.log ++ [Call.Begin])) := by
  have hs : step env w Op.Begin = (none, w.set (some t) 1 (w.log ++ [Call.Begin])) :=
    Begin_first env w t hw hb
  simp only [List.replicate_succ, run, hs]
  have h := run_Begin_nested env n (w.set (some t) 1 (w.log ++ [Call.Begin])) t
    (by simp [World.set])
  simp only [List.replicate_succ] at h
  rw [h]
  simp [World.set]
  omega

theorem run_Commit_nested (env : Env) (k : Nat) (w : World)
    (hd : (k : Int) < w.db.nestedTx) :
    run env w (List.replicate k Op.Commit) =
      (List.replicate k none, w.set w.db.tx (w.db.nestedTx - k) w.log) := by
  induction k generalizing w with
  | zero =>
    rcases w with ⟨⟨_, _, _, _, _, _, _, _⟩, _⟩
    simp [run, World.set]
  | succ k ih =>
    have hs : step env w Op.Commit = (none, w.set w.db.tx (w.db.nestedTx - 1) w.log) :=
      Commit_nested env w (by omega)
    simp only [List.replicate_succ, run, hs]
    rw [ih _ (by simp [World.set]; omega)]
    simp [World.set]
    omega

theorem World.set_set (w : World) (tx tx' : Option Tx) (d d' : Int) (l l' : List Call) :
    (w.set tx d l).set tx' d' l' = w.set tx' d' l' := rfl

theorem run_singleton (env : Env) (w : World) (op : Op) :
    run env w [op] = ([(step env w op).1], (step env w op).2) := rfl

/-- After `m + 1` calls of `Begin` and `m` calls of `Commit` from the empty
state the transaction opened by the first `Begin` is still open, at depth 1. -/
theorem run_Begin_Commit (env : Env) (m : Nat) (w : World) (t : Tx) (hw : Empty w)
    (hb : env.sqlBegin w.log = Except.ok t) :
    run env w (List.replicate (m + 1) Op.Begin ++ List.replicate m Op.Commit) =
      (List.replicate (m + 1 + m) none, w.set (some t) 1 (w.log ++ [Call.Begin])) := by
  rw [run_append, run_Begin_empty env m w t hw hb]
  rw [run_Commit_nested env m _ (by simp [World.set])]
  simp only [World.set_set, List.append_replicate_replicate]
  simp [World.set]

theorem okEnv_begin : BeginSucceeds okEnv := fun log => ⟨log.length, rfl⟩

theorem okEnv_commit : CommitSucceeds okEnv := fun _ _ => rfl

theorem okEnv_rollback : RollbackSucceeds okEnv := fun _ _ => rfl

theorem freshWorld_empty : Empty freshWorld := ⟨rfl, rfl⟩

/-! ## Balanced Begin and Commit -/

/-- C1: from the empty state, with a driver whose begin and commit succeed,
`N ≥ 1` calls of `Begin` followed by `N` calls of `Commit` all return no error;
the driver's begin is called once, by the first `Begin`, and the driver's commit
once, by the last `Commit` (the log holds only the begin until then); the run
ends at depth 0 with no handle. -/
theorem begin_commit_balanced (env : Env) (w : World) (N : Nat) (hN : 1 ≤ N)
    (hw : Empty w) (hb : BeginSucceeds env) (hc : CommitSucceeds env) :
    ∃ t, env.sqlBegin w.log = Except.ok t ∧
      (run env w (List.replicate N Op.Begin ++ List.replicate N Op.Commit)).1 =
        List.replicate (N + N) none ∧
      (Begin env w).2.log = w.log ++ [Call.Begin] ∧
      (run env w (List.replicate N Op.Begin ++ List.replicate (N - 1) Op.Commit)).2.log =
        w.log ++ [Call.Begin] ∧
      (run env w (List.replicate N Op.Begin ++ List.replicate N Op.Commit)).2.log =
        w.log ++ [Call.Begin, Call.Commit t] ∧
      (run env w (List.replicate N Op.Begin ++ List.replicate N Op.Commit)).2.db.nestedTx = 0 ∧
      (run env w (List.replicate N Op.Begin ++ List.replicate N Op.Commit)).2.db.tx = none := by
  obtain ⟨t, ht⟩ := hb w.log
  obtain ⟨m, rfl⟩ : ∃ m, N = m + 1 := ⟨N - 1, by omega⟩
  have hmid := run_Begin_Commit env m w t hw ht
  have hlast : step env (w.set (some t) 1 (w.log ++ [Call.Begin])) Op.Commit =
      (none, w.set none 0 (w.log ++ [Call.Begin, Call.Commit t])) := by
    have h := Commit_last env (w.set (some t) 1 (w.log ++ [Call.Begin])) t rfl rfl (hc _ _)
    simpa [World.set] using h
  have hall : run env w (List.replicate (m + 1) Op.Begin ++ List.replicate (m + 1) Op.Commit) =
      (List.replicate (m + 1 + (m + 1)) none,
        w.set none 0 (w.log ++ [Call.Begin, Call.Commit t])) := by
    have e : List.replicate (m + 1) Op.Commit = List.replicate m Op.Commit ++ [Op.Commit] :=
      List.replicate_succ' m Op.Commit
    rw [e, ← List.append_assoc, run_append, hmid, run_singleton, hlast]
    have e2 : List.replicate (m + 1 + (m + 1)) (none : Option Err) =
        List.replicate (m + 1 + m) none ++ [none] := List.replicate_succ' (m + 1 + m) none
    rw [e2]
  have hfirst := Begin_first env w t hw ht
  refine ⟨t, ht, ?_, ?_, ?_, ?_, ?_, ?_⟩
  · rw [hall]
  · rw [hfirst]; rfl
  · simp only [Nat.add_sub_cancel]
    rw [hmid]; rfl
  · rw [hall]; rfl
  · rw [hall]; rfl
  · rw [hall]; rfl

/-- Instance of `begin_commit_balanced` at the depth 3 of `TestTransaction3`. -/
theorem begin_commit_balanced_witness :
    (1 ≤ 3 ∧ Empty freshWorld ∧ BeginSucceeds okEnv ∧ CommitSucceeds okEnv) ∧
    ∃ t, okEnv.sqlBegin freshWorld.log = Except.ok t ∧
      (run okEnv freshWorld (List.replicate 3 Op.Begin ++ List.replicate 3 Op.Commit)).1 =
        List.replicate (3 + 3) none ∧
      (Begin okEnv freshWorld).2.log = freshWorld.log ++ [Call.Begin] ∧
      (run okEnv freshWorld
        (List.replicate 3 Op.Begin ++ List.replicate (3 - 1) Op.Commit)).2.log =
        freshWorld.log ++ [Call.Begin] ∧
      (run okEnv freshWorld (List.replicate 3 Op.Begin ++ List.replicate 3 Op.Commit)).2.log =
        freshWorld.log ++ [Call.Begin, Call.Commit t] ∧
      (run okEnv freshWorld
        (List.replicate 3 Op.Begin ++ List.replicate 3 Op.Commit)).2.db.nestedTx = 0 ∧
      (run okEnv freshWorld
        (List.replicate 3 Op.Begin ++ List.replicate 3 Op.Commit)).2.db.tx = none :=
  ⟨⟨by decide, freshWorld_empty, okEnv_begin, okEnv_commit⟩,
   begin_commit_balanced okEnv freshWorld 3 (by decide) freshWorld_empty okEnv_begin
     okEnv_commit⟩

/-! ## CommitForce -/

/-- C5: from the empty state, with a driver whose begin and commit succeed,
after `N ≥ 1` calls of `Begin` (all without error) one `CommitForce` returns no
error, adds exactly one driver commit to the log, and leaves depth 0 with no
handle, whatever `N` is. -/
theorem commit_force_flushes (env : Env) (w : World) (N : Nat) (hN : 1 ≤ N)
    (hw : Empty w) (hb : BeginSucceeds env) (hc : CommitSucceeds env) :
    ∃ t, env.sqlBegin w.log = Except.ok t ∧
      (run env w (List.replicate N Op.Begin)).1 = List.replicate N none ∧
      (run env w (List.replicate N Op.Begin)).2.db.nestedTx = N ∧
      (run env w (List.replicate N Op.Begin)).2.log = w.log ++ [Call.Begin] ∧
      (CommitForce env (run env w (List.replicate N Op.Begin)).2).1 = none ∧
      (CommitForce env (run env w (List.replicate N Op.Begin)).2).2.log =
        (run env w (List.replicate N Op.Begin)).2.log ++ [Call.Commit t] ∧
      (CommitForce env (run env w (List.replicate N Op.Begin)).2).2.db.nestedTx = 0 ∧
      (CommitForce env (run env w (List.replicate N Op.Begin)).2).2.db.tx = none := by
  obtain ⟨t, ht⟩ := hb w.log
  obtain ⟨m, rfl⟩ : ∃ m, N = m + 1 := ⟨N - 1, by omega⟩
  have hrun := run_Begin_empty env m w t hw ht
  have hcf := CommitForce_open env (w.set (some t) (m + 1) (w.log ++ [Call.Begin])) t rfl
    (by simp only [World.set]; omega) (hc _ _)
  rw [hrun]
  simp only [hcf]
  refine ⟨t, ht, trivial, ?_, rfl, trivial, rfl, rfl, rfl⟩
  simp [World.set]

/-- Instance of `commit_force_flushes` at depth 4. -/
theorem commit_force_flushes_witness :
    (1 ≤ 4 ∧ Empty freshWorld ∧ BeginSucceeds okEnv ∧ CommitSucceeds okEnv) ∧
    ∃ t, okEnv.sqlBegin freshWorld.log = Except.ok t ∧
      (run okEnv freshWorld (List.replicate 4 Op.Begin)).1 = List.replicate 4 none ∧
      (run okEnv freshWorld (List.replicate 4 Op.Begin)).2.db.nestedTx = (4 : Nat) ∧
      (run okEnv freshWorld (List.replicate 4 Op.Begin)).2.log =
        freshWorld.log ++ [Call.Begin] ∧
      (CommitForce okEnv (run okEnv freshWorld (List.replicate 4 Op.Begin)).2).1 = none ∧
      (CommitForce okEnv (run okEnv freshWorld (List.replicate 4 Op.Begin)).2).2.log =
        (run okEnv freshWorld (List.replicate 4 Op.Begin)).2.log ++ [Call.Commit t] ∧
      (CommitForce okEnv
        (run okEnv freshWorld (List.replicate 4 Op.Begin)).2).2.db.nestedTx = 0 ∧
      (CommitForce okEnv (run okEnv freshWorld (List.replicate 4 Op.Begin)).2).2.db.tx = none :=
  ⟨⟨by decide, freshWorld_empty, okEnv_begin, okEnv_commit⟩,
   commit_force_flushes okEnv freshWorld 4 (by decide) freshWorld_empty okEnv_begin
     okEnv_commit⟩

/-! ## Begin when the driver refuses -/

/-- C8: when `Begin` is called at depth 0 with no handle and the driver fails to
open the engine transaction, `Begin` returns the driver's error itself and the
handle is as before the call: depth 0, no transaction (the log records the one
attempt). -/
theorem begin_driver_error (env : Env) (w : World) (e : Err) (hw : Empty w)
    (hb : env.sqlBegin w.log = Except.error e) :
    (Begin env w).1 = some e ∧ (Begin env w).2.db = w.db ∧
      (Begin env w).2.db.nestedTx = 0 ∧ (Begin env w).2.db.tx = none ∧
      (Begin env w).2.log = w.log ++ [Call.Begin] := by
  obtain ⟨h1, h2⟩ := hw
  simp [Begin, h1, h2, hb]

/-- Instance of `begin_driver_error` for a driver that cannot open the file. -/
theorem begin_driver_error_witness :
    (Empty freshWorld ∧ beginFailEnv.sqlBegin freshWorld.log =
        Except.error (Err.foreign 14 "unable to open database file")) ∧
    ((Begin beginFailEnv freshWorld).1 =
        some (Err.foreign 14 "unable to open database file") ∧
      (Begin beginFailEnv freshWorld).2.db = freshWorld.db ∧
      (Begin beginFailEnv freshWorld).2.db.nestedTx = 0 ∧
      (Begin beginFailEnv freshWorld).2.db.tx = none ∧
      (Begin beginFailEnv freshWorld).2.log = freshWorld.log ++ [Call.Begin]) :=
  ⟨⟨freshWorld_empty, rfl⟩,
   begin_driver_error beginFailEnv freshWorld _ freshWorld_empty rfl⟩

/-! ## Rollback -/

theorem Rollback_handle (env : Env) (w : World) : (Rollback env w).2.db.tx = none := by
  unfold Rollback
  cases ht : w.db.tx with
  | none => by_cases hd : w.db.nestedTx = 0 <;> simp [ht, hd]
  | some t =>
    cases hr : env.txRollback w.log t with
    | some e => simp [hr]
    | none => by_cases hd : w.db.nestedTx = 0 <;> simp [hr, hd]

theorem Rollback_log (env : Env) (w : World) (t : Tx) (ht : w.db.tx = some t) :
    (Rollback env w).2.log = w.log ++ [Call.Rollback t] := by
  unfold Rollback
  cases hr : env.txRollback w.log t with
  | some e => simp [ht, hr]
  | none => by_cases hd : w.db.nestedTx = 0 <;> simp [ht, hr, hd]

/-- C7: from the empty state, with a driver whose begin and rollback succeed,
`n ≥ 1` calls of `Begin`, then `n - 1` calls of `Commit`, then one `Rollback` all
return no error; the log gains one driver begin and one driver rollback and no
driver commit; the run ends at depth 0 with no handle; one more `Commit` returns
the error "No transaction open" and leaves the state as it is. -/
theorem commit_then_rollback (env : Env) (w : World) (n : Nat) (hn : 1 ≤ n)
    (hw : Empty w) (hb : BeginSucceeds env) (hr : RollbackSucceeds env) :
    ∃ t, env.sqlBegin w.log = Except.ok t ∧
      (run env w (List.replicate n Op.Begin ++ List.replicate (n - 1) Op.Commit ++
        [Op.Rollback])).1 = List.replicate (n + (n - 1) + 1) none ∧
      (run env w (List.replicate n Op.Begin ++ List.replicate (n - 1) Op.Commit ++
        [Op.Rollback])).2.log = w.log ++ [Call.Begin, Call.Rollback t] ∧
      (run env w (List.replicate n Op.Begin ++ List.replicate (n - 1) Op.Commit ++
        [Op.Rollback])).2.db.nestedTx = 0 ∧
      (run env w (List.replicate n Op.Begin ++ List.replicate (n - 1) Op.Commit ++
        [Op.Rollback])).2.db.tx = none ∧
      Commit env (run env w (List.replicate n Op.Begin ++ List.replicate (n - 1) Op.Commit ++
        [Op.Rollback])).2 =
        (some (Err.errorf "No transaction open"),
          (run env w (List.replicate n Op.Begin ++ List.replicate (n - 1) Op.Commit ++
            [Op.Rollback])).2) ∧
      NoTransactionOpen (Err.errorf "No transaction open") = true := by
  obtain ⟨t, ht⟩ := hb w.log
  obtain ⟨m, rfl⟩ : ∃ m, n = m + 1 := ⟨n - 1, by omega⟩
  simp only [Nat.add_sub_cancel]
  have hmid := run_Begin_Commit env m w t hw ht
  have hlast : step env (w.set (some t) 1 (w.log ++ [Call.Begin])) Op.Rollback =
      (none, w.set none 0 (w.log ++ [Call.Begin, Call.Rollback t])) := by
    have h := Rollback_open env (w.set (some t) 1 (w.log ++ [Call.Begin])) t rfl
      (by simp [World.set]) (hr _ _)
    simpa [World.set] using h
  have hall : run env w (List.replicate (m + 1) Op.Begin ++ List.replicate m Op.Commit ++
      [Op.Rollback]) =
      (List.replicate (m + 1 + m + 1) none,
        w.set none 0 (w.log ++ [Call.Begin, Call.Rollback t])) := by
    rw [run_append, hmid, run_singleton, hlast]
    have e2 : List.replicate (m + 1 + m + 1) (none : Option Err) =
        List.replicate (m + 1 + m) none ++ [none] := List.replicate_succ' (m + 1 + m) none
    rw [e2]
  rw [hall]
  refine ⟨t, ht, rfl, rfl, rfl, rfl, ?_, by decide⟩
  exact Commit_empty env _ rfl

/-- Instance of `commit_then_rollback` at the depth 2 of `TestTransaction4`. -/
theorem commit_then_rollback_witness :
    (1 ≤ 2 ∧ Empty freshWorld ∧ BeginSucceeds okEnv ∧ RollbackSucceeds okEnv) ∧
    ∃ t, okEnv.sqlBegin freshWorld.log = Except.ok t ∧
      (run okEnv freshWorld (List.replicate 2 Op.Begin ++ List.replicate (2 - 1) Op.Commit ++
        [Op.Rollback])).1 = List.replicate (2 + (2 - 1) + 1) none ∧
      (run okEnv freshWorld (List.replicate 2 Op.Begin ++ List.replicate (2 - 1) Op.Commit ++
        [Op.Rollback])).2.log = freshWorld.log ++ [Call.Begin, Call.Rollback t] ∧
      (run okEnv freshWorld (List.replicate 2 Op.Begin ++ List.replicate (2 - 1) Op.Commit ++
        [Op.Rollback])).2.db.nestedTx = 0 ∧
      (run okEnv freshWorld (List.replicate 2 Op.Begin ++ List.replicate (2 - 1) Op.Commit ++
        [Op.Rollback])).2.db.tx = none ∧
      Commit okEnv (run okEnv freshWorld (List.replicate 2 Op.Begin ++
        List.replicate (2 - 1) Op.Commit ++ [Op.Rollback])).2 =
        (some (Err.errorf "No transaction open"),
          (run okEnv freshWorld (List.replicate 2 Op.Begin ++
            List.replicate (2 - 1) Op.Commit ++ [Op.Rollback])).2) ∧
      NoTransactionOpen (Err.errorf "No transaction open") = true :=
  ⟨⟨by decide, freshWorld_empty, okEnv_begin, okEnv_rollback⟩,
   commit_then_rollback okEnv freshWorld 2 (by decide) freshWorld_empty okEnv_begin
     okEnv_rollback⟩

/-- C2, as stated, fails at depth 3: with a driver that never fails, three
calls of `Begin` and a `Rollback` succeed and leave depth 2 with no handle, and
the `Commit` that follows at once returns no error; it only lowers the depth
to 1. -/
theorem rollback_then_commit_depth3 :
    (run okEnv freshWorld [Op.Begin, Op.Begin, Op.Begin]).1 = [none, none, none] ∧
    (afterBegins okEnv freshWorld 3).db.nestedTx = 3 ∧
    (Rollback okEnv (afterBegins okEnv freshWorld 3)).1 = none ∧
    (Rollback okEnv (afterBegins okEnv freshWorld 3)).2.db.tx = none ∧
    (Rollback okEnv (afterBegins okEnv freshWorld 3)).2.db.nestedTx = 2 ∧
    (Rollback okEnv (afterBegins okEnv freshWorld 3)).2.log = [Call.Begin, Call.Rollback 0] ∧
    (Commit okEnv (Rollback okEnv (afterBegins okEnv freshWorld 3)).2).1 = none ∧
    (Commit okEnv (Rollback okEnv (afterBegins okEnv freshWorld 3)).2).2.db.nestedTx = 1 := by
  decide

/-- When the driver's rollback fails, `Rollback` returns the error with the
handle already cleared and the depth as it was. -/
theorem Rollback_driver_error (env : Env) (w : World) (t : Tx) (e : Err)
    (ht : w.db.tx = some t) (hr : env.txRollback w.log t = some e) :
    Rollback env w = (some e, w.set none w.db.nestedTx (w.log ++ [Call.Rollback t])) := by
  simp [Rollback, World.set, ht, hr]

/-- C2, amended: from the empty state, with a driver whose begin succeeds,
after `n > 0` calls of `Begin` a `Rollback` clears the handle and calls the
driver's rollback, whatever the driver answers.  When the driver's rollback
succeeds, `Rollback` returns no error and leaves depth `n - 1`; the `Commit`
that follows at once returns a "No transaction open" error for `n ≤ 2`, and for
`n ≥ 3` it returns no error, lowers the depth to `n - 2` and calls no driver.
When the driver's rollback fails, `Rollback` returns the driver's error and
leaves depth `n`; the `Commit` that follows at once returns a "No transaction
open" error for `n = 1`, and for `n ≥ 2` it returns no error, lowers the depth
to `n - 1` and calls no driver. -/
theorem rollback_then_commit (env : Env) (w : World) (n : Nat) (hn : 0 < n)
    (hw : Empty w) (hb : BeginSucceeds env) :
    ∃ t, env.sqlBegin w.log = Except.ok t ∧
      (run env w (List.replicate n Op.Begin)).1 = List.replicate n none ∧
      (afterBegins env w n).db.nestedTx = n ∧
      (afterBegins env w n).db.tx = some t ∧
      (Rollback env (afterBegins env w n)).2.db.tx = none ∧
      (Rollback env (afterBegins env w n)).2.log =
        (afterBegins env w n).log ++ [Call.Rollback t] ∧
      (env.txRollback (afterBegins env w n).log t = none →
        (Rollback env (afterBegins env w n)).1 = none ∧
        (Rollback env (afterBegins env w n)).2.db.nestedTx = (n : Int) - 1 ∧
        (n ≤ 2 → ∃ e, (Commit env (Rollback env (afterBegins env w n)).2).1 = some e ∧
          NoTransactionOpen e = true) ∧
        (3 ≤ n →
          (Commit env (Rollback env (afterBegins env w n)).2).1 = none ∧
          (Commit env (Rollback env (afterBegins env w n)).2).2.db.nestedTx = (n : Int) - 2 ∧
          (Commit env (Rollback env (afterBegins env w n)).2).2.db.tx = none ∧
          (Commit env (Rollback env (afterBegins env w n)).2).2.log =
            (Rollback env (afterBegins env w n)).2.log)) ∧
      (∀ err, env.txRollback (afterBegins env w n).log t = some err →
        (Rollback env (afterBegins env w n)).1 = some err ∧
        (Rollback env (afterBegins env w n)).2.db.nestedTx = (n : Int) ∧
        (n = 1 → ∃ e, (Commit env (Rollback env (afterBegins env w n)).2).1 = some e ∧
          NoTransactionOpen e = true) ∧
        (2 ≤ n →
          (Commit env (Rollback env (afterBegins env w n)).2).1 = none ∧
          (Commit env (Rollback env (afterBegins env w n)).2).2.db.nestedTx = (n : Int) - 1 ∧
          (Commit env (Rollback env (afterBegins env w n)).2).2.db.tx = none ∧
          (Commit env (Rollback env (afterBegins env w n)).2).2.log =
            (Rollback env (afterBegins env w n)).2.log)) := by
  obtain ⟨t, ht⟩ := hb w.log
  obtain ⟨m, rfl⟩ : ∃ m, n = m + 1 := ⟨n - 1, by omega⟩
  have hrun := run_Begin_empty env m w t hw ht
  have hS : afterBegins env w (m + 1) =
      w.set (some t) ((m + 1 : Nat) : Int) (w.log ++ [Call.Begin]) := by
    simp only [afterBegins, hrun, Nat.cast_add, Nat.cast_one]
  refine ⟨t, ht, by rw [hrun], by rw [hS]; rfl, by rw [hS]; rfl, Rollback_handle env _,
    Rollback_log env _ t (by rw [hS]; rfl), ?_, ?_⟩
  · intro hr
    have hR := Rollback_open env (afterBegins env w (m + 1)) t (by rw [hS]; rfl)
      (by rw [hS]; simp only [World.set]; omega) hr
    rw [hR]
    have hd : ((afterBegins env w (m + 1)).set none
        ((afterBegins env w (m + 1)).db.nestedTx - 1)
        ((afterBegins env w (m + 1)).log ++ [Call.Rollback t])).db.nestedTx = (m : Int) := by
      rw [hS]; simp [World.set]
    refine ⟨rfl, by rw [hd]; push_cast; omega, ?_, ?_⟩
    · intro h2
      rcases Nat.eq_zero_or_pos m with h0 | hpos
      · refine ⟨Err.errorf "No transaction open", ?_, by decide⟩
        rw [Commit_empty env _ (by rw [hd, h0]; rfl)]
      · have h1 : m = 1 := by omega
        refine ⟨Err.errorf "No transaction open.2", ?_, by decide⟩
        rw [Commit_no_handle env _ (by rw [hd, h1]; rfl) rfl]
    · intro h3
      rw [Commit_nested env _ (by rw [hd]; omega)]
      refine ⟨rfl, ?_, rfl, rfl⟩
      show _ - 1 = _
      rw [hd]; push_cast; omega
  · intro err hr
    have hR := Rollback_driver_error env (afterBegins env w (m + 1)) t err (by rw [hS]; rfl) hr
    rw [hR]
    have hd : ((afterBegins env w (m + 1)).set none
        (afterBegins env w (m + 1)).db.nestedTx
        ((afterBegins env w (m + 1)).log ++ [Call.Rollback t])).db.nestedTx =
        ((m + 1 : Nat) : Int) := by
      rw [hS]; rfl
    refine ⟨rfl, hd, ?_, ?_⟩
    · intro h1
      have h0 : m = 0 := by omega
      refine ⟨Err.errorf "No transaction open.2", ?_, by decide⟩
      rw [Commit_no_handle env _ (by rw [hd, h0]; rfl) rfl]
    · intro h2
      rw [Commit_nested env _ (by rw [hd]; push_cast; omega)]
      refine ⟨rfl, ?_, rfl, rfl⟩
      show _ - 1 = _
      rw [hd]

/-- Instance of `rollback_then_commit` at the depth 2 of `TestTransaction5`. -/
theorem rollback_then_commit_witness :
    (0 < 2 ∧ Empty freshWorld ∧ BeginSucceeds okEnv) ∧
    ∃ t, okEnv.sqlBegin freshWorld.log = Except.ok t ∧
      (run okEnv freshWorld (List.replicate 2 Op.Begin)).1 = List.replicate 2 none ∧
      (afterBegins okEnv freshWorld 2).db.nestedTx = (2 : Nat) ∧
      (afterBegins okEnv freshWorld 2).db.tx = some t ∧
      (Rollback okEnv (afterBegins okEnv freshWorld 2)).2.db.tx = none ∧
      (Rollback okEnv (afterBegins okEnv freshWorld 2)).2.log =
        (afterBegins okEnv freshWorld 2).log ++ [Call.Rollback t] ∧
      (okEnv.txRollback (afterBegins okEnv freshWorld 2).log t = none →
        (Rollback okEnv (afterBegins okEnv freshWorld 2)).1 = none ∧
        (Rollback okEnv (afterBegins okEnv freshWorld 2)).2.db.nestedTx = ((2 : Nat) : Int) - 1 ∧
        (2 ≤ 2 → ∃ e,
          (Commit okEnv (Rollback okEnv (afterBegins okEnv freshWorld 2)).2).1 = some e ∧
          NoTransactionOpen e = true) ∧
        (3 ≤ 2 →
          (Commit okEnv (Rollback okEnv (afterBegins okEnv freshWorld 2)).2).1 = none ∧
          (Commit okEnv (Rollback okEnv (afterBegins okEnv freshWorld 2)).2).2.db.nestedTx =
            ((2 : Nat) : Int) - 2 ∧
          (Commit okEnv (Rollback okEnv (afterBegins okEnv freshWorld 2)).2).2.db.tx = none ∧
          (Commit okEnv (Rollback okEnv (afterBegins okEnv freshWorld 2)).2).2.log =
            (Rollback okEnv (afterBegins okEnv freshWorld 2)).2.log)) ∧
      (∀ err, okEnv.txRollback (afterBegins okEnv freshWorld 2).log t = some err →
        (Rollback okEnv (afterBegins okEnv freshWorld 2)).1 = some err ∧
        (Rollback okEnv (afterBegins okEnv freshWorld 2)).2.db.nestedTx = ((2 : Nat) : Int) ∧
        (2 = 1 → ∃ e,
          (Commit okEnv (Rollback okEnv (afterBegins okEnv freshWorld 2)).2).1 = some e ∧
          NoTransactionOpen e = true) ∧
        (2 ≤ 2 →
          (Commit okEnv (Rollback okEnv (afterBegins okEnv freshWorld 2)).2).1 = none ∧
          (Commit okEnv (Rollback okEnv (afterBegins okEnv freshWorld 2)).2).2.db.nestedTx =
            ((2 : Nat) : Int) - 1 ∧
          (Commit okEnv (Rollback okEnv (afterBegins okEnv freshWorld 2)).2).2.db.tx = none ∧
          (Commit okEnv (Rollback okEnv (afterBegins okEnv freshWorld 2)).2).2.log =
            (Rollback okEnv (afterBegins okEnv freshWorld 2)).2.log)) :=
  ⟨⟨by decide, freshWorld_empty, okEnv_begin⟩,
   rollback_then_commit okEnv freshWorld 2 (by decide) freshWorld_empty okEnv_begin⟩

/-- The failing-rollback branch at depth 2: with a driver whose rollback fails,
`Rollback` after two calls of `Begin` returns the driver's error, clears the
handle and leaves depth 2, and the `Commit` that follows at once returns no
error and leaves depth 1. -/
theorem rollback_error_then_commit_depth2 :
    (run rollbackFailEnv freshWorld [Op.Begin, Op.Begin]).1 = [none, none] ∧
    (Rollback rollbackFailEnv (afterBegins rollbackFailEnv freshWorld 2)).1 =
      some (Err.foreign 5 "database is locked") ∧
    (Rollback rollbackFailEnv (afterBegins rollbackFailEnv freshWorld 2)).2.db.tx = none ∧
    (Rollback rollbackFailEnv (afterBegins rollbackFailEnv freshWorld 2)).2.db.nestedTx = 2 ∧
    (Commit rollbackFailEnv
      (Rollback rollbackFailEnv (afterBegins rollbackFailEnv freshWorld 2)).2).1 = none ∧
    (Commit rollbackFailEnv
      (Rollback rollbackFailEnv (afterBegins rollbackFailEnv freshWorld 2)).2).2.db.nestedTx =
      1 := by
  decide

/-! ## Handle and depth -/

theorem step_depth_bounds (env : Env) (w : World) (op : Op) (h : 0 ≤ w.db.nestedTx) :
    0 ≤ (step env w op).2.db.nestedTx ∧
      (step env w op).2.db.nestedTx ≤ w.db.nestedTx + 1 := by
  rcases w with ⟨⟨_, _, _, _, _, _, tx, d⟩, log⟩
  cases op <;> cases tx <;> simp only [step, Begin, Commit, CommitForce, Rollback] <;>
    (repeat' split) <;> simp_all <;> omega

/-- After any run that starts at a depth that is not negative, the depth is
not negative and has grown by at most the number of calls. -/
theorem run_depth_bounds (env : Env) (ops : List Op) (w : World) (h : 0 ≤ w.db.nestedTx) :
    0 ≤ (run env w ops).2.db.nestedTx ∧
      (run env w ops).2.db.nestedTx ≤ w.db.nestedTx + ops.length := by
  induction ops generalizing w with
  | nil => simp [run, h]
  | cons op ops ih =>
    have hs := step_depth_bounds env w op h
    have hr := ih (step env w op).2 hs.1
    simp only [run, List.length_cons, Nat.cast_add, Nat.cast_one]
    omega

/-- The depth after a run from the empty state lies between 0 and the number of
calls made, so it stays in the range of a Go `int` on every run shorter than
`2 ^ 31` calls. -/
theorem nestedTx_bounds (env : Env) (ops : List Op) (w : World) (hw : Empty w) :
    0 ≤ (run env w ops).2.db.nestedTx ∧ (run env w ops).2.db.nestedTx ≤ ops.length := by
  have h := run_depth_bounds env ops w (by rw [hw.2])
  rw [hw.2] at h
  omega

theorem step_HandleImpliesDepth (env : Env) (w : World) (op : Op) (hc : CommitSucceeds env)
    (h : HandleImpliesDepth w) : HandleImpliesDepth (step env w op).2 := by
  obtain ⟨h0, h1⟩ := h
  rcases w with ⟨⟨_, _, _, _, _, _, tx, d⟩, log⟩
  cases op <;> cases tx <;>
    simp only [step, Begin, Commit, CommitForce, Rollback, HandleImpliesDepth] <;>
    (repeat' split) <;> simp_all [hc _ _] <;> omega

theorem step_HandleIffDepth (env : Env) (w : World) (op : Op) (hc : CommitSucceeds env)
    (hop : op ≠ Op.Rollback) (h : HandleIffDepth w) : HandleIffDepth (step env w op).2 := by
  obtain ⟨h0, h1⟩ := h
  rcases w with ⟨⟨_, _, _, _, _, _, tx, d⟩, log⟩
  cases op <;> cases tx <;>
    simp only [step, Begin, Commit, CommitForce, Rollback, HandleIffDepth] <;>
    (repeat' split) <;> simp_all [hc _ _] <;> omega

theorem run_HandleImpliesDepth (env : Env) (ops : List Op) (w : World)
    (hc : CommitSucceeds env) (h : HandleImpliesDepth w) :
    HandleImpliesDepth (run env w ops).2 := by
  induction ops generalizing w with
  | nil => exact h
  | cons op ops ih => exact ih _ (step_HandleImpliesDepth env w op hc h)

theorem run_HandleIffDepth (env : Env) (ops : List Op) (w : World)
    (hc : CommitSucceeds env) (hops : Op.Rollback ∉ ops) (h : HandleIffDepth w) :
    HandleIffDepth (run env w ops).2 := by
  induction ops generalizing w with
  | nil => exact h
  | cons op ops ih =>
    have h1 : op ≠ Op.Rollback := fun e => hops (by simp [e])
    have h2 : Op.Rollback ∉ ops := fun hm => hops (List.mem_cons_of_mem _ hm)
    exact ih _ h2 (step_HandleIffDepth env w op hc h1 h)

theorem Empty.handleIffDepth (w : World) (hw : Empty w) : HandleIffDepth w := by
  obtain ⟨h1, h2⟩ := hw
  simp [HandleIffDepth, h1, h2]

theorem Empty.handleImpliesDepth (w : World) (hw : Empty w) : HandleImpliesDepth w := by
  obtain ⟨h1, h2⟩ := hw
  simp [HandleImpliesDepth, h1, h2]

/-- C3, as stated, fails: with a driver that never fails, `Begin`, `Begin`,
`Rollback` from the empty state ends at depth 1 with a nil handle, so "handle
non-nil iff depth > 0" does not hold in every reachable state. -/
theorem handle_iff_depth_fails :
    ¬ ∀ (env : Env) (w : World) (ops : List Op), Empty w →
      ((run env w ops).2.db.tx ≠ none ↔ 0 < (run env w ops).2.db.nestedTx) := by
  intro h
  have h1 := h okEnv freshWorld [Op.Begin, Op.Begin, Op.Rollback] freshWorld_empty
  revert h1
  decide

/-- C3, amended: in every state reached from the empty state by calls of
`Begin`, `Commit`, `CommitForce` and `Rollback` with a driver whose commit
succeeds, a non-nil handle implies a depth greater than 0; the converse holds as
long as the sequence has no `Rollback`. -/
theorem handle_implies_depth (env : Env) (w : World) (ops : List Op) (hw : Empty w)
    (hc : CommitSucceeds env) :
    ((run env w ops).2.db.tx ≠ none → 0 < (run env w ops).2.db.nestedTx) ∧
    (Op.Rollback ∉ ops →
      (0 < (run env w ops).2.db.nestedTx → (run env w ops).2.db.tx ≠ none)) :=
  ⟨(run_HandleImpliesDepth env ops w hc (Empty.handleImpliesDepth w hw)).2,
   fun hops => (run_HandleIffDepth env ops w hc hops (Empty.handleIffDepth w hw)).2.2⟩

/-- Instance of `handle_implies_depth` on `Begin`, `Begin`, `Commit`. -/
theorem handle_implies_depth_witness :
    (Empty freshWorld ∧ CommitSucceeds okEnv) ∧
    (((run okEnv freshWorld [Op.Begin, Op.Begin, Op.Commit]).2.db.tx ≠ none →
      0 < (run okEnv freshWorld [Op.Begin, Op.Begin, Op.Commit]).2.db.nestedTx) ∧
    (Op.Rollback ∉ [Op.Begin, Op.Begin, Op.Commit] →
      (0 < (run okEnv freshWorld [Op.Begin, Op.Begin, Op.Commit]).2.db.nestedTx →
        (run okEnv freshWorld [Op.Begin, Op.Begin, Op.Commit]).2.db.tx ≠ none))) :=
  ⟨⟨freshWorld_empty, okEnv_commit⟩,
   handle_implies_depth okEnv freshWorld [Op.Begin, Op.Begin, Op.Commit] freshWorld_empty
     okEnv_commit⟩

/-! ## The queryable selector -/

/-- C6, as stated, fails: with a driver that never fails, after `Begin`,
`Begin`, `Rollback` from the empty state the depth is 1 and there is no open
engine transaction for `queryable` to return; it returns the base connection. -/
theorem queryable_by_depth_fails :
    ¬ ∀ (env : Env) (w : World) (ops : List Op), Empty w →
      (0 < (run env w ops).2.db.nestedTx →
        ∃ t, (run env w ops).2.db.tx = some t ∧
          queryable (run env w ops).2 = Queryable.tx t) ∧
      (¬ 0 < (run env w ops).2.db.nestedTx →
        queryable (run env w ops).2 = Queryable.DB) := by
  intro h
  have h1 := (h okEnv freshWorld [Op.Begin, Op.Begin, Op.Rollback] freshWorld_empty).1
    (by decide)
  obtain ⟨t, ht, _⟩ := h1
  have hn : (run okEnv freshWorld [Op.Begin, Op.Begin, Op.Rollback]).2.db.tx = none := by
    decide
  rw [hn] at ht
  cases ht

/-- C6, amended: in every state reached from the empty state by calls of
`Begin`, `Commit`, `CommitForce` and `Rollback` with a driver whose commit
succeeds, `queryable` returns the engine transaction when the handle is non-nil
and the base connection otherwise; at depth 0 that is the base connection, and
at a depth greater than 0 it is the open transaction as long as the sequence
has no `Rollback`. -/
theorem queryable_follows_handle (env : Env) (w : World) (ops : List Op) (hw : Empty w)
    (hc : CommitSucceeds env) :
    (∀ t, (run env w ops).2.db.tx = some t →
      queryable (run env w ops).2 = Queryable.tx t) ∧
    ((run env w ops).2.db.tx = none → queryable (run env w ops).2 = Queryable.DB) ∧
    ((run env w ops).2.db.nestedTx = 0 → queryable (run env w ops).2 = Queryable.DB) ∧
    (Op.Rollback ∉ ops → 0 < (run env w ops).2.db.nestedTx →
      ∃ t, (run env w ops).2.db.tx = some t ∧
        queryable (run env w ops).2 = Queryable.tx t) := by
  have hi := (run_HandleImpliesDepth env ops w hc (Empty.handleImpliesDepth w hw)).2
  refine ⟨fun t ht => by simp [queryable, ht], fun ht => by simp [queryable, ht], ?_, ?_⟩
  · intro hd
    cases ht : (run env w ops).2.db.tx with
    | none => simp [queryable, ht]
    | some t =>
      have := hi (by simp [ht])
      omega
  · intro hops hd
    have hs := (run_HandleIffDepth env ops w hc hops (Empty.handleIffDepth w hw)).2.2 hd
    cases ht : (run env w ops).2.db.tx with
    | none => exact absurd ht hs
    | some t => exact ⟨t, rfl, by simp [queryable, ht]⟩

/-- Instance of `queryable_follows_handle` on `Begin`, `Begin`, `Commit`. -/
theorem queryable_follows_handle_witness :
    (Empty freshWorld ∧ CommitSucceeds okEnv) ∧
    ((∀ t, (run okEnv freshWorld [Op.Begin, Op.Begin, Op.Commit]).2.db.tx = some t →
      queryable (run okEnv freshWorld [Op.Begin, Op.Begin, Op.Commit]).2 = Queryable.tx t) ∧
    ((run okEnv freshWorld [Op.Begin, Op.Begin, Op.Commit]).2.db.tx = none →
      queryable (run okEnv freshWorld [Op.Begin, Op.Begin, Op.Commit]).2 = Queryable.DB) ∧
    ((run okEnv freshWorld [Op.Begin, Op.Begin, Op.Commit]).2.db.nestedTx = 0 →
      queryable (run okEnv freshWorld [Op.Begin, Op.Begin, Op.Commit]).2 = Queryable.DB) ∧
    (Op.Rollback ∉ [Op.Begin, Op.Begin, Op.Commit] →
      0 < (run okEnv freshWorld [Op.Begin, Op.Begin, Op.Commit]).2.db.nestedTx →
      ∃ t, (run okEnv freshWorld [Op.Begin, Op.Begin, Op.Commit]).2.db.tx = some t ∧
        queryable (run okEnv freshWorld [Op.Begin, Op.Begin, Op.Commit]).2 =
          Queryable.tx t)) :=
  ⟨⟨freshWorld_empty, okEnv_commit⟩,
   queryable_follows_handle okEnv freshWorld [Op.Begin, Op.Begin, Op.Commit] freshWorld_empty
     okEnv_commit⟩

/-! ## Commit when the driver refuses -/

/-- When the driver's commit fails in the outermost `Commit`, the error is
returned with the depth already at 0 and the handle still set. -/
theorem Commit_driver_error (env : Env) (w : World) (t : Tx) (e : Err)
    (hd : w.db.nestedTx = 1) (ht : w.db.tx = some t) (hc : env.txCommit w.log t = some e) :
    Commit env w = (some e, w.set (some t) 0 (w.log ++ [Call.Commit t])) := by
  simp [Commit, World.set, hd, ht, hc]

/-- C4: the code at the failing input.  After one `Begin`, a `Commit` whose
driver commit fails returns the driver's error and leaves depth 0 with the
handle still set (transaction 0), where the claim has it cleared; the next
`Begin` then reuses that handle without asking the driver for a transaction.
`Rollback` on a failing driver does clear the handle. -/
theorem commit_error_keeps_handle :
    Begin commitFailEnv freshWorld = (none, freshWorld.set (some 0) 1 [Call.Begin]) ∧
    Commit commitFailEnv (freshWorld.set (some 0) 1 [Call.Begin]) =
      (some (Err.foreign 5 "database is locked"),
        freshWorld.set (some 0) 0 [Call.Begin, Call.Commit 0]) ∧
    (Commit commitFailEnv (freshWorld.set (some 0) 1 [Call.Begin])).2.db.nestedTx = 0 ∧
    (Commit commitFailEnv (freshWorld.set (some 0) 1 [Call.Begin])).2.db.tx = some 0 ∧
    Begin commitFailEnv (freshWorld.set (some 0) 0 [Call.Begin, Call.Commit 0]) =
      (none, freshWorld.set (some 0) 1 [Call.Begin, Call.Commit 0]) ∧
    Rollback rollbackFailEnv (freshWorld.set (some 0) 1 [Call.Begin]) =
      (some (Err.foreign 5 "database is locked"),
        freshWorld.set none 1 [Call.Begin, Call.Rollback 0]) := by
  decide

/-! ## Exec on a read-only handle -/

/-- C9: on a handle whose `ReadOnly` flag is set, for every query and argument
list, `Exec` and `ExecEx` return `ErrReadOnly` with a nil result and leave the
handle and the log as they were: no call reaches the parser, the compiler or
the driver, and the transaction state is unchanged. -/
theorem exec_read_only (env : Env) (w : World) (query : String) (q : goql.Query)
    (args : List Value) (hro : w.db.ReadOnly = true) :
    Exec env w query args = (Except.error Err.ErrReadOnly, w) ∧
    ExecEx env w q args = (Except.error Err.ErrReadOnly, w) ∧
    (Exec env w query args).2.log = w.log ∧ (ExecEx env w q args).2.log = w.log ∧
    (Exec env w query args).2.db = w.db ∧ (ExecEx env w q args).2.db = w.db := by
  simp [Exec, ExecEx, hro]

/-- Instance of `exec_read_only` on the insert statement of `dbx_test.go`. -/
theorem exec_read_only_witness :
    readOnlyWorld.db.ReadOnly = true ∧
    (Exec okEnv readOnlyWorld "insert into cars (name,price) values(?, ?)"
        [Value.str "ford", Value.int 99] = (Except.error Err.ErrReadOnly, readOnlyWorld) ∧
    ExecEx okEnv readOnlyWorld (goql.Query.other 0) [Value.str "ford", Value.int 99] =
      (Except.error Err.ErrReadOnly, readOnlyWorld) ∧
    (Exec okEnv readOnlyWorld "insert into cars (name,price) values(?, ?)"
        [Value.str "ford", Value.int 99]).2.log = readOnlyWorld.log ∧
    (ExecEx okEnv readOnlyWorld (goql.Query.other 0)
        [Value.str "ford", Value.int 99]).2.log = readOnlyWorld.log ∧
    (Exec okEnv readOnlyWorld "insert into cars (name,price) values(?, ?)"
        [Value.str "ford", Value.int 99]).2.db = readOnlyWorld.db ∧
    (ExecEx okEnv readOnlyWorld (goql.Query.other 0)
        [Value.str "ford", Value.int 99]).2.db = readOnlyWorld.db) :=
  ⟨rfl, exec_read_only okEnv readOnlyWorld _ _ _ rfl⟩

/-! ## QueryRow and QueryValue -/

/-- C10: for a table `t` returned by a successful `Query`: with zero rows
`QueryRow` returns `(nil, nil)` and so does `QueryValue`; with exactly one row
`QueryRow` returns that row and no error, and `QueryValue` returns the row's
value and no error when the row holds exactly one value and an error when it
does not; with two or more rows both return an error. -/
theorem query_row_value (env : Env) (w w' : World) (query : String) (args : List Value)
    (t : Table) (hq : Query env w query args = (Outcome.ok t, w')) :
    (t.Rows.length = 0 →
      QueryRow env w query args = (Outcome.ok none, w') ∧
      QueryValue env w query args = (Outcome.ok Value.nil, w')) ∧
    (t.Rows.length = 1 → ∃ r, t.Rows = [r] ∧
      QueryRow env w query args = (Outcome.ok (some r), w') ∧
      (r.Values.length = 1 → ∃ v, r.Values = [v] ∧
        QueryValue env w query args = (Outcome.ok v, w')) ∧
      (r.Values.length ≠ 1 →
        QueryValue env w query args =
          (Outcome.error (Err.errorf
            ("The query returned " ++ toString r.Values.length ++ " values")), w'))) ∧
    (2 ≤ t.Rows.length →
      QueryRow env w query args =
        (Outcome.error (Err.errorf
          ("The query returned " ++ toString t.Rows.length ++ " results")), w') ∧
      QueryValue env w query args =
        (Outcome.error (Err.errorf
          ("The query returned " ++ toString t.Rows.length ++ " results")), w')) := by
  rcases t with ⟨cols, rows⟩
  refine ⟨?_, ?_, ?_⟩
  · intro h0
    have hr : rows = [] := List.length_eq_zero.mp h0
    subst hr
    simp [QueryValue, QueryRow, hq]
  · intro h1
    obtain ⟨r, hr⟩ := List.length_eq_one.mp h1
    subst hr
    have hrow : QueryRow env w query args = (Outcome.ok (some r), w') := by
      simp [QueryRow, hq]
    refine ⟨r, rfl, hrow, ?_, ?_⟩
    · intro hv
      obtain ⟨v, hv'⟩ := List.length_eq_one.mp hv
      exact ⟨v, hv', by simp [QueryValue, hrow, hv']⟩
    · intro hv
      rcases r with ⟨vals⟩
      match vals, hv with
      | [], _ => simp [QueryValue, hrow]
      | [v], hv => simp at hv
      | _ :: _ :: _, _ => simp [QueryValue, hrow]
  · intro h2
    match rows, h2 with
    | r1 :: r2 :: rest, _ =>
      have hrow : QueryRow env w query args =
          (Outcome.error (Err.errorf ("The query returned " ++
            toString (r1 :: r2 :: rest).length ++ " results")), w') := by
        simp [QueryRow, hq]
      exact ⟨hrow, by simp [QueryValue, hrow]⟩

/-- Instance of `query_row_value` on the query of `TestSelect`, which returns
one row holding one value. -/
theorem query_row_value_witness :
    Query okEnv freshWorld "select name from cars" [] =
      (Outcome.ok oneRowTable, (Query okEnv freshWorld "select name from cars" []).2) ∧
    ((oneRowTable.Rows.length = 0 →
      QueryRow okEnv freshWorld "select name from cars" [] =
        (Outcome.ok none, (Query okEnv freshWorld "select name from cars" []).2) ∧
      QueryValue okEnv freshWorld "select name from cars" [] =
        (Outcome.ok Value.nil, (Query okEnv freshWorld "select name from cars" []).2)) ∧
    (oneRowTable.Rows.length = 1 → ∃ r, oneRowTable.Rows = [r] ∧
      QueryRow okEnv freshWorld "select name from cars" [] =
        (Outcome.ok (some r), (Query okEnv freshWorld "select name from cars" []).2) ∧
      (r.Values.length = 1 → ∃ v, r.Values = [v] ∧
        QueryValue okEnv freshWorld "select name from cars" [] =
          (Outcome.ok v, (Query okEnv freshWorld "select name from cars" []).2)) ∧
      (r.Values.length ≠ 1 →
        QueryValue okEnv freshWorld "select name from cars" [] =
          (Outcome.error (Err.errorf
            ("The query returned " ++ toString r.Values.length ++ " values")),
            (Query okEnv freshWorld "select name from cars" []).2))) ∧
    (2 ≤ oneRowTable.Rows.length →
      QueryRow okEnv freshWorld "select name from cars" [] =
        (Outcome.error (Err.errorf
          ("The query returned " ++ toString oneRowTable.Rows.length ++ " results")),
          (Query okEnv freshWorld "select name from cars" []).2) ∧
      QueryValue okEnv freshWorld "select name from cars" [] =
        (Outcome.error (Err.errorf
          ("The query returned " ++ toString oneRowTable.Rows.length ++ " results")),
          (Query okEnv freshWorld "select name from cars" []).2))) :=
  ⟨rfl, query_row_value okEnv freshWorld _ "select name from cars" [] oneRowTable rfl⟩

end Dbx
